import Mathlib

set_option autoImplicit false

/-
Shallow embedding of the noria daemon controller (src/daemon/src/controller.rs).

Network addresses (std::net::SocketAddr) are modelled as opaque Nat identifiers,
as are outbound TcpSender handles. Instants (std::time::Instant) are Nat
timestamps; `x.elapsed()` at time `now` is `now - x` (Instant is monotone, so
truncated subtraction agrees with the real elapsed duration whenever `x ≤ now`).
The outcome of the blocking call `TcpSender::connect(remote, None)` is supplied
by the environment as an `Option SenderId` oracle: `some s` is a successful
connection yielding handle `s`, `none` is an io::Error. Fallible handlers
return `Except Unit Controller` (the io::Error payload is irrelevant to control
flow, so it is collapsed to Unit); `unimplemented!()` aborts the process, which
the dispatcher models by returning `none`.
-/

namespace NoriaController

/-- Opaque model of std::net::SocketAddr. -/
abbrev Addr := Nat

/-- Opaque model of std::time::Instant, as a monotone Nat timestamp. -/
abbrev Instant := Nat

/-- Opaque model of an Arc-Mutex-wrapped TcpSender handle. -/
abbrev SenderId := Nat

/-- struct WorkerStatus (controller.rs lines 13-17): health flag, last
heartbeat instant, and the optional outbound sender handle. -/
structure WorkerStatus where
  healthy : Bool
  last_heartbeat : Instant
  sender : Option SenderId
deriving DecidableEq, Repr

/-- WorkerStatus::new (controller.rs lines 20-26): healthy = true,
last_heartbeat = Instant::now() (passed explicitly as `now`), sender = Some. -/
def WorkerStatus.new (sender : SenderId) (now : Instant) : WorkerStatus :=
  { healthy := true, last_heartbeat := now, sender := some sender }

/-- Modelled from the spec: the payload variants of
distributary::CoordinationPayload, whose definition lives outside the
controller source. The spec (section 3) gives `Register(callbackAddress)`,
`Heartbeat`, and an open extension point for future variants not yet handled;
`Other` stands for any such extension variant. -/
inductive CoordinationPayload where
  | Register (remote : Addr)
  | Heartbeat
  | Other (tag : Nat)
deriving DecidableEq, Repr

/-- Modelled from the spec: distributary::CoordinationMessage, the wire
envelope `{ source, payload }` (spec section 3). -/
structure CoordinationMessage where
  source : Addr
  payload : CoordinationPayload
deriving DecidableEq, Repr

/-- The worker registry, modelling HashMap of SocketAddr to WorkerStatus as an
association list whose reachable states have pairwise distinct keys. -/
abbrev Registry := List (Addr × WorkerStatus)

/-- HashMap::get / get_mut on the registry model: the value at the first entry
whose key matches. -/
def lookupWorker : Registry → Addr → Option WorkerStatus
  | [], _ => none
  | (k, v) :: rest, a => if k = a then some v else lookupWorker rest a

/-- HashMap::insert on the registry model: replace the binding of an existing
key, otherwise append a fresh binding. -/
def insertWorker : Registry → Addr → WorkerStatus → Registry
  | [], a, v => [(a, v)]
  | (k, v₀) :: rest, a, v =>
    if k = a then (a, v) :: rest else (k, v₀) :: insertWorker rest a v

/-- The in-place mutation `ws.last_heartbeat = Instant::now()` performed through
HashMap::get_mut: update the first entry with the given key. -/
def setHeartbeat : Registry → Addr → Instant → Registry
  | [], _, _ => []
  | (k, v) :: rest, a, now =>
    if k = a then (k, { v with last_heartbeat := now }) :: rest
    else (k, v) :: setHeartbeat rest a now

/-- The per-entry body of the liveness sweep (controller.rs lines 111-114):
if the worker is healthy and its heartbeat is older than heartbeat_every * 3,
mark it unhealthy (and warn); otherwise leave it untouched. -/
def sweepStatus (heartbeat_every : Nat) (now : Instant) (ws : WorkerStatus) :
    WorkerStatus :=
  if ws.healthy && decide (now - ws.last_heartbeat > heartbeat_every * 3)
  then { ws with healthy := false }
  else ws

/-- struct Controller (controller.rs lines 29-41), restricted to the fields the
event loop reads or writes: the worker registry, the Blender handle (modelled
as the list of (address, sender) pairs passed to add_worker, in call order),
the two configured durations, and the last sweep instant. The listen address,
port and logger do not affect registry or graph state. -/
structure Controller where
  workers : Registry
  blender : List (Addr × SenderId)
  heartbeat_every : Nat
  healthcheck_every : Nat
  last_checked_workers : Instant
deriving DecidableEq, Repr

/-- Controller::new (controller.rs lines 44-64): empty registry, fresh Blender
with no workers, last_checked_workers = Instant::now(). -/
def Controller.new (heartbeat_every healthcheck_every : Nat) (now : Instant) :
    Controller :=
  { workers := []
    blender := []
    heartbeat_every := heartbeat_every
    healthcheck_every := healthcheck_every
    last_checked_workers := now }

/-- Controller::check_worker_liveness (controller.rs lines 108-118): when more
than healthcheck_every has elapsed since the last check, sweep every entry with
sweepStatus and reset last_checked_workers to now. -/
def check_worker_liveness (c : Controller) (now : Instant) : Controller :=
  if now - c.last_checked_workers > c.healthcheck_every then
    { c with
      workers := c.workers.map
        (fun kv => (kv.1, sweepStatus c.heartbeat_every now kv.2))
      last_checked_workers := now }
  else c

/-- Controller::handle_register (controller.rs lines 128-148): connect to the
callback address (outcome supplied by `connectResult`); on failure the
io::Error propagates via `?` before any state is touched; on success build a
fresh WorkerStatus, insert it keyed by msg.source, then lock the Blender and
add_worker(msg.source, sender). -/
def handle_register (c : Controller) (source : Addr) (remote : Addr)
    (connectResult : Option SenderId) (now : Instant) :
    Except Unit Controller :=
  match connectResult with
  | none => .error ()
  | some sender =>
    let ws := WorkerStatus.new sender now
    .ok { c with
          workers := insertWorker c.workers source ws
          blender := c.blender ++ [(source, sender)] }

/-- Controller::handle_heartbeat (controller.rs lines 150-165): unknown source
logs a critical message and changes nothing; a known source has its
last_heartbeat set to Instant::now(); both paths return Ok(()). -/
def handle_heartbeat (c : Controller) (source : Addr) (now : Instant) :
    Except Unit Controller :=
  match lookupWorker c.workers source with
  | none => .ok c
  | some _ => .ok { c with workers := setHeartbeat c.workers source now }

/-- Controller::handle (controller.rs lines 120-126): dispatch on the payload;
any variant other than Register or Heartbeat hits `unimplemented!()`, which
aborts the process, modelled as `none`. -/
def handle (c : Controller) (msg : CoordinationMessage)
    (connectResult : Option SenderId) (now : Instant) :
    Option (Except Unit Controller) :=
  match msg.payload with
  | .Register remote => some (handle_register c msg.source remote connectResult now)
  | .Heartbeat => some (handle_heartbeat c msg.source now)
  | .Other _ => none

/-- The events delivered to the polling-loop closure (controller.rs lines
87-103): an inbound message (together with the connect-oracle outcome the
environment would produce for it), a ResumePolling wakeup, or a timeout. -/
inductive PollEvent where
  | Process (msg : CoordinationMessage) (connectResult : Option SenderId)
  | ResumePolling
  | Timeout
deriving DecidableEq, Repr

/-- One iteration of the polling-loop closure in Controller::listen
(controller.rs lines 87-103): on Process, dispatch via handle, where Ok is
discarded and Err is logged, leaving state as the handler left it (an Err from
handle_register propagates before any mutation, so the controller is
unchanged); a panic from handle aborts the process (`none`). Every event kind
then falls through to check_worker_liveness. -/
def listenStep (c : Controller) (e : PollEvent) (now : Instant) :
    Option Controller :=
  match e with
  | .Process msg connectResult =>
    match handle c msg connectResult now with
    | none => none
    | some (.ok c₁) => some (check_worker_liveness c₁ now)
    | some (.error _) => some (check_worker_liveness c now)
  | .ResumePolling => some (check_worker_liveness c now)
  | .Timeout => some (check_worker_liveness c now)

/-- A run of the event loop over a list of (event, arrival instant) pairs;
`none` as soon as any iteration panics. -/
def runTrace (c : Controller) : List (PollEvent × Instant) → Option Controller
  | [] => some c
  | (e, t) :: rest =>
    match listenStep c e t with
    | none => none
    | some c₁ => runTrace c₁ rest

/-- Instants in a trace are non-decreasing starting from a base instant
(the monotone-clock assumption on Instant::now). -/
def timesMono : Instant → List (PollEvent × Instant) → Bool
  | _, [] => true
  | t, (_, t₁) :: rest => decide (t ≤ t₁) && timesMono t₁ rest

/-- A concrete controller state used to instantiate the theorems below: worker 1
is registered and healthy, worker 2 is registered and already unhealthy. -/
def cW : Controller :=
  { workers :=
      [(1, { healthy := true, last_heartbeat := 0, sender := some 7 }),
       (2, { healthy := false, last_heartbeat := 0, sender := none })]
    blender := [(1, 7)]
    heartbeat_every := 2
    healthcheck_every := 5
    last_checked_workers := 0 }

/-- A concrete event trace: worker 1 registers twice (successful connects
yielding handles 7, then 8) from an initially empty controller. -/
def trW : List (PollEvent × Instant) :=
  [(.Process { source := 1, payload := .Register 9 } (some 7), 1),
   (.Process { source := 1, payload := .Register 9 } (some 8), 2)]

/-- The controller reached by running trW from Controller.new 2 5 0: one entry
for worker 1 (the second registration overwrote the first) and two blender
admissions. -/
def cW5 : Controller :=
  { workers := [(1, { healthy := true, last_heartbeat := 2, sender := some 8 })]
    blender := [(1, 7), (1, 8)]
    heartbeat_every := 2
    healthcheck_every := 5
    last_checked_workers := 0 }

/-- A concrete event trace: worker 1 heartbeats at instant 7. -/
def trW8 : List (PollEvent × Instant) :=
  [(.Process { source := 1, payload := .Heartbeat } none, 7)]

/-- The controller reached by running trW8 from cW: worker 1 has heartbeat 7,
and the (gated) liveness check ran at instant 7 without demoting anyone. -/
def cW8 : Controller :=
  { workers :=
      [(1, { healthy := true, last_heartbeat := 7, sender := some 7 }),
       (2, { healthy := false, last_heartbeat := 0, sender := none })]
    blender := [(1, 7)]
    heartbeat_every := 2
    healthcheck_every := 5
    last_checked_workers := 7 }

theorem lookupWorker_insertWorker (w : Registry) (a : Addr) (v : WorkerStatus)
    (b : Addr) :
    lookupWorker (insertWorker w a v) b
      = if b = a then some v else lookupWorker w b := by
  induction w with
  | nil =>
    by_cases hb : b = a
    · subst hb; simp [insertWorker, lookupWorker]
    · have hab : ¬ a = b := fun h => hb h.symm
      simp [insertWorker, lookupWorker, hb, hab]
  | cons kv rest ih =>
    obtain ⟨k, v₀⟩ := kv
    by_cases hk : k = a
    · subst hk
      by_cases hb : b = k
      · subst hb; simp [insertWorker, lookupWorker]
      · have hkb : ¬ k = b := fun h => hb h.symm
        simp [insertWorker, lookupWorker, hb, hkb]
    · by_cases hb : k = b
      · subst hb
        simp [insertWorker, lookupWorker, hk]
      · simp [insertWorker, lookupWorker, hk, hb, ih]

theorem lookupWorker_setHeartbeat (w : Registry) (a : Addr) (now : Instant)
    (b : Addr) :
    lookupWorker (setHeartbeat w a now) b
      = if b = a
        then (lookupWorker w b).map (fun ws => { ws with last_heartbeat := now })
        else lookupWorker w b := by
  induction w with
  | nil => simp [setHeartbeat, lookupWorker]
  | cons kv rest ih =>
    obtain ⟨k, v₀⟩ := kv
    by_cases hk : k = a
    · subst hk
      by_cases hb : b = k
      · subst hb; simp [setHeartbeat, lookupWorker]
      · have hkb : ¬ k = b := fun h => hb h.symm
        simp [setHeartbeat, lookupWorker, hb, hkb]
    · by_cases hb : k = b
      · subst hb
        simp [setHeartbeat, lookupWorker, hk]
      · simp [setHeartbeat, lookupWorker, hk, hb, ih]

theorem lookupWorker_mapValue (g : WorkerStatus → WorkerStatus) (w : Registry)
    (b : Addr) :
    lookupWorker (w.map (fun kv => (kv.1, g kv.2))) b
      = (lookupWorker w b).map g := by
  induction w with
  | nil => simp [lookupWorker]
  | cons kv rest ih =>
    by_cases h : kv.1 = b <;> simp [lookupWorker, h, ih]

theorem mem_of_lookupWorker (w : Registry) (a : Addr) (ws : WorkerStatus)
    (h : lookupWorker w a = some ws) : (a, ws) ∈ w := by
  induction w with
  | nil => simp [lookupWorker] at h
  | cons kv rest ih =>
    obtain ⟨k, v⟩ := kv
    by_cases hk : k = a
    · subst hk
      simp [lookupWorker] at h
      subst h
      exact List.mem_cons_self _ _
    · simp [lookupWorker, hk] at h
      exact List.mem_cons_of_mem _ (ih h)

theorem keys_setHeartbeat (w : Registry) (a : Addr) (now : Instant) :
    (setHeartbeat w a now).map Prod.fst = w.map Prod.fst := by
  induction w with
  | nil => rfl
  | cons kv rest ih =>
    obtain ⟨k, v⟩ := kv
    by_cases h : k = a <;> simp [setHeartbeat, h, ih]

theorem mem_keys_insertWorker (w : Registry) (a : Addr) (v : WorkerStatus)
    (b : Addr) :
    b ∈ (insertWorker w a v).map Prod.fst ↔ b ∈ w.map Prod.fst ∨ b = a := by
  induction w with
  | nil => simp [insertWorker]
  | cons kv rest ih =>
    obtain ⟨k, v₀⟩ := kv
    by_cases h : k = a
    · subst h; simp [insertWorker]; tauto
    · simp [insertWorker, h, ih]; tauto

theorem nodup_keys_insertWorker (w : Registry) (a : Addr) (v : WorkerStatus)
    (h : (w.map Prod.fst).Nodup) :
    ((insertWorker w a v).map Prod.fst).Nodup := by
  induction w with
  | nil => simp [insertWorker]
  | cons kv rest ih =>
    obtain ⟨k, v₀⟩ := kv
    simp only [List.map_cons, List.nodup_cons] at h
    by_cases hk : k = a
    · subst hk
      simpa [insertWorker] using h
    · simp only [insertWorker, hk, if_false, List.map_cons, List.nodup_cons]
      refine ⟨?_, ih h.2⟩
      rw [mem_keys_insertWorker]
      rintro (hmem | rfl)
      · exact h.1 hmem
      · exact hk rfl

theorem sweepStatus_last_heartbeat (hb : Nat) (now : Instant)
    (ws : WorkerStatus) :
    (sweepStatus hb now ws).last_heartbeat = ws.last_heartbeat := by
  unfold sweepStatus; split <;> rfl

theorem sweepStatus_sender (hb : Nat) (now : Instant) (ws : WorkerStatus) :
    (sweepStatus hb now ws).sender = ws.sender := by
  unfold sweepStatus; split <;> rfl

theorem sweepStatus_healthy_of (hb : Nat) (now : Instant) (ws : WorkerStatus)
    (h : (sweepStatus hb now ws).healthy = true) : ws.healthy = true := by
  unfold sweepStatus at h
  split at h
  · exact absurd h (by simp)
  · exact h

theorem sweepStatus_eq_ite (hb : Nat) (now : Instant) (ws : WorkerStatus) :
    sweepStatus hb now ws
      = if ws.healthy = true ∧ hb * 3 < now - ws.last_heartbeat
        then { ws with healthy := false }
        else ws := by
  unfold sweepStatus
  cases hws : ws.healthy <;> simp [hws, gt_iff_lt]

theorem check_worker_liveness_blender (c : Controller) (now : Instant) :
    (check_worker_liveness c now).blender = c.blender := by
  unfold check_worker_liveness; split <;> rfl

theorem check_worker_liveness_heartbeat_every (c : Controller)
    (now : Instant) :
    (check_worker_liveness c now).heartbeat_every = c.heartbeat_every := by
  unfold check_worker_liveness; split <;> rfl

theorem check_worker_liveness_keys (c : Controller) (now : Instant) :
    (check_worker_liveness c now).workers.map Prod.fst
      = c.workers.map Prod.fst := by
  unfold check_worker_liveness
  split
  · simp [List.map_map]
  · rfl

theorem check_worker_liveness_lookup_of_gate (c : Controller) (now : Instant)
    (hgate : now - c.last_checked_workers > c.healthcheck_every) (a : Addr) :
    lookupWorker (check_worker_liveness c now).workers a
      = (lookupWorker c.workers a).map (sweepStatus c.heartbeat_every now) := by
  unfold check_worker_liveness
  rw [if_pos hgate]
  exact lookupWorker_mapValue (sweepStatus c.heartbeat_every now) c.workers a

theorem check_worker_liveness_lookup_or (c : Controller) (now : Instant)
    (a : Addr) :
    lookupWorker (check_worker_liveness c now).workers a
        = (lookupWorker c.workers a).map (sweepStatus c.heartbeat_every now)
      ∨ lookupWorker (check_worker_liveness c now).workers a
        = lookupWorker c.workers a := by
  unfold check_worker_liveness
  split
  · exact Or.inl (lookupWorker_mapValue (sweepStatus c.heartbeat_every now) c.workers a)
  · exact Or.inr rfl

theorem mem_insertWorker (w : Registry) (a : Addr) (v : WorkerStatus)
    (kv : Addr × WorkerStatus) (h : kv ∈ insertWorker w a v) :
    kv ∈ w ∨ kv = (a, v) := by
  induction w with
  | nil => simp [insertWorker] at h; simp [h]
  | cons kv₀ rest ih =>
    obtain ⟨k, v₀⟩ := kv₀
    by_cases hk : k = a
    · simp [insertWorker, hk] at h
      rcases h with h | h
      · right; simp [h]
      · left; exact List.mem_cons_of_mem _ h
    · simp [insertWorker, hk] at h
      rcases h with h | h
      · left; simp [h]
      · rcases ih h with h₁ | h₁
        · left; exact List.mem_cons_of_mem _ h₁
        · right; exact h₁

theorem mem_setHeartbeat (w : Registry) (a : Addr) (now : Instant)
    (kv : Addr × WorkerStatus) (h : kv ∈ setHeartbeat w a now) :
    kv ∈ w ∨ kv.2.last_heartbeat = now := by
  induction w with
  | nil => simp [setHeartbeat] at h
  | cons kv₀ rest ih =>
    obtain ⟨k, v₀⟩ := kv₀
    by_cases hk : k = a
    · simp [setHeartbeat, hk] at h
      rcases h with h | h
      · right; simp [h]
      · left; exact List.mem_cons_of_mem _ h
    · simp [setHeartbeat, hk] at h
      rcases h with h | h
      · left; simp [h]
      · rcases ih h with h₁ | h₁
        · left; exact List.mem_cons_of_mem _ h₁
        · right; exact h₁

theorem stamps_check_worker_liveness (c : Controller) (now : Instant)
    (t : Instant) (hs : ∀ kv ∈ c.workers, kv.2.last_heartbeat ≤ t) :
    ∀ kv ∈ (check_worker_liveness c now).workers, kv.2.last_heartbeat ≤ t := by
  intro kv hkv
  unfold check_worker_liveness at hkv
  split at hkv
  · simp only [List.mem_map] at hkv
    obtain ⟨kv₀, hkv₀, rfl⟩ := hkv
    simpa [sweepStatus_last_heartbeat] using hs kv₀ hkv₀
  · exact hs kv hkv

/-- Every successful iteration of the polling-loop closure is
check_worker_liveness applied to one of three intermediate states: the
controller unchanged, the controller after a successful registration insert,
or the controller after a heartbeat timestamp update. -/
theorem listenStep_shape (c : Controller) (e : PollEvent) (now : Instant)
    (c₁ : Controller) (h : listenStep c e now = some c₁) :
    c₁ = check_worker_liveness c now
    ∨ (∃ msg s remote, e = .Process msg (some s)
        ∧ msg.payload = .Register remote
        ∧ c₁ = check_worker_liveness
            { c with
              workers := insertWorker c.workers msg.source (WorkerStatus.new s now)
              blender := c.blender ++ [(msg.source, s)] } now)
    ∨ (∃ msg cr ws, e = .Process msg cr ∧ msg.payload = .Heartbeat
        ∧ lookupWorker c.workers msg.source = some ws
        ∧ c₁ = check_worker_liveness
            { c with workers := setHeartbeat c.workers msg.source now } now) := by
  cases e with
  | Process msg cr =>
    cases hp : msg.payload with
    | Register remote =>
      cases cr with
      | none =>
        left
        simp [listenStep, handle, hp, handle_register] at h
        exact h.symm
      | some s =>
        right; left
        refine ⟨msg, s, remote, rfl, hp, ?_⟩
        simp [listenStep, handle, hp, handle_register, WorkerStatus.new] at h
        simp [WorkerStatus.new]
        exact h.symm
    | Heartbeat =>
      cases hl : lookupWorker c.workers msg.source with
      | none =>
        left
        simp [listenStep, handle, hp, handle_heartbeat, hl] at h
        exact h.symm
      | some ws =>
        right; right
        refine ⟨msg, cr, ws, rfl, hp, hl, ?_⟩
        simp [listenStep, handle, hp, handle_heartbeat, hl] at h
        exact h.symm
    | Other t =>
      simp [listenStep, handle, hp] at h
  | ResumePolling =>
    left
    simp [listenStep] at h
    exact h.symm
  | Timeout =>
    left
    simp [listenStep] at h
    exact h.symm

theorem listenStep_nodup (c : Controller) (e : PollEvent) (now : Instant)
    (c₁ : Controller) (h : listenStep c e now = some c₁)
    (hn : (c.workers.map Prod.fst).Nodup) :
    (c₁.workers.map Prod.fst).Nodup := by
  rcases listenStep_shape c e now c₁ h with hsh | ⟨msg, s, remote, _, _, hsh⟩ |
    ⟨msg, cr, ws, _, _, _, hsh⟩ <;> subst hsh <;> rw [check_worker_liveness_keys]
  · exact hn
  · exact nodup_keys_insertWorker c.workers msg.source (WorkerStatus.new s now) hn
  · rw [keys_setHeartbeat]; exact hn

theorem listenStep_stamps (c : Controller) (e : PollEvent) (now : Instant)
    (c₁ : Controller) (h : listenStep c e now = some c₁)
    (hs : ∀ kv ∈ c.workers, kv.2.last_heartbeat ≤ now) :
    ∀ kv ∈ c₁.workers, kv.2.last_heartbeat ≤ now := by
  rcases listenStep_shape c e now c₁ h with hsh | ⟨msg, s, remote, _, _, hsh⟩ |
    ⟨msg, cr, ws, _, _, _, hsh⟩ <;> subst hsh <;>
    apply stamps_check_worker_liveness <;> intro kv hkv
  · exact hs kv hkv
  · rcases mem_insertWorker _ _ _ kv hkv with hm | hm
    · exact hs kv hm
    · subst hm; exact Nat.le_refl now
  · rcases mem_setHeartbeat _ _ _ kv hkv with hm | hm
    · exact hs kv hm
    · exact Nat.le_of_eq hm

theorem check_lookup_lh (c : Controller) (now : Instant) (a : Addr)
    (ws : WorkerStatus) (hl : lookupWorker c.workers a = some ws) :
    ∃ ws₁, lookupWorker (check_worker_liveness c now).workers a = some ws₁
      ∧ ws₁.last_heartbeat = ws.last_heartbeat := by
  rcases check_worker_liveness_lookup_or c now a with hc | hc
  · exact ⟨sweepStatus c.heartbeat_every now ws,
      by rw [hc, hl]; rfl, sweepStatus_last_heartbeat _ _ _⟩
  · exact ⟨ws, by rw [hc, hl], rfl⟩

/-- One loop iteration preserves the presence of every registered worker, and
either preserves its last_heartbeat or sets it to the current instant. -/
theorem listenStep_lookup_lh (c : Controller) (e : PollEvent) (now : Instant)
    (c₁ : Controller) (a : Addr) (ws : WorkerStatus)
    (h : listenStep c e now = some c₁)
    (hl : lookupWorker c.workers a = some ws) :
    ∃ ws₁, lookupWorker c₁.workers a = some ws₁
      ∧ (ws₁.last_heartbeat = ws.last_heartbeat ∨ ws₁.last_heartbeat = now) := by
  rcases listenStep_shape c e now c₁ h with hsh | ⟨msg, s, remote, _, _, hsh⟩ |
    ⟨msg, cr, ws₀, _, _, hl₀, hsh⟩ <;> subst hsh
  · obtain ⟨ws₁, h₁, h₂⟩ := check_lookup_lh c now a ws hl
    exact ⟨ws₁, h₁, Or.inl h₂⟩
  · by_cases ha : a = msg.source
    · have hmid : lookupWorker
          ({ c with
             workers := insertWorker c.workers msg.source (WorkerStatus.new s now)
             blender := c.blender ++ [(msg.source, s)] } : Controller).workers a
          = some (WorkerStatus.new s now) := by
        show lookupWorker
          (insertWorker c.workers msg.source (WorkerStatus.new s now)) a = _
        rw [lookupWorker_insertWorker, if_pos ha]
      obtain ⟨ws₁, h₁, h₂⟩ := check_lookup_lh _ now a (WorkerStatus.new s now) hmid
      exact ⟨ws₁, h₁, Or.inr h₂⟩
    · have hmid : lookupWorker
          ({ c with
             workers := insertWorker c.workers msg.source (WorkerStatus.new s now)
             blender := c.blender ++ [(msg.source, s)] } : Controller).workers a
          = some ws := by
        show lookupWorker
          (insertWorker c.workers msg.source (WorkerStatus.new s now)) a = _
        rw [lookupWorker_insertWorker, if_neg ha]; exact hl
      obtain ⟨ws₁, h₁, h₂⟩ := check_lookup_lh _ now a ws hmid
      exact ⟨ws₁, h₁, Or.inl h₂⟩
  · by_cases ha : a = msg.source
    · have hmid : lookupWorker
          ({ c with workers := setHeartbeat c.workers msg.source now } :
            Controller).workers a
          = some { ws with last_heartbeat := now } := by
        show lookupWorker (setHeartbeat c.workers msg.source now) a = _
        rw [lookupWorker_setHeartbeat, if_pos ha, hl]
        rfl
      obtain ⟨ws₁, h₁, h₂⟩ := check_lookup_lh _ now a _ hmid
      exact ⟨ws₁, h₁, Or.inr h₂⟩
    · have hmid : lookupWorker
          ({ c with workers := setHeartbeat c.workers msg.source now } :
            Controller).workers a
          = some ws := by
        show lookupWorker (setHeartbeat c.workers msg.source now) a = _
        rw [lookupWorker_setHeartbeat, if_neg ha]; exact hl
      obtain ⟨ws₁, h₁, h₂⟩ := check_lookup_lh _ now a ws hmid
      exact ⟨ws₁, h₁, Or.inl h₂⟩

theorem insertWorker_length_of_lookup (w : Registry) (a : Addr)
    (v ws : WorkerStatus) (h : lookupWorker w a = some ws) :
    (insertWorker w a v).length = w.length := by
  induction w with
  | nil => simp [lookupWorker] at h
  | cons kv rest ih =>
    obtain ⟨k, v₀⟩ := kv
    by_cases hk : k = a
    · simp [insertWorker, hk]
    · simp only [lookupWorker, hk, if_false] at h
      simp [insertWorker, hk, ih h]

theorem runTrace_nodup (tr : List (PollEvent × Instant)) :
    ∀ c c' : Controller, (c.workers.map Prod.fst).Nodup →
      runTrace c tr = some c' → (c'.workers.map Prod.fst).Nodup := by
  induction tr with
  | nil =>
    intro c c' hn h
    simp [runTrace] at h
    exact h ▸ hn
  | cons et rest ih =>
    intro c c' hn h
    obtain ⟨e, t⟩ := et
    cases hs : listenStep c e t with
    | none => simp [runTrace, hs] at h
    | some c₁ =>
      have hrest : runTrace c₁ rest = some c' := by
        simpa [runTrace, hs] using h
      exact ih c₁ c' (listenStep_nodup c e t c₁ hs hn) hrest

theorem runTrace_lastHeartbeat_le (tr : List (PollEvent × Instant)) :
    ∀ (c c' : Controller) (t₀ : Instant) (a : Addr) (ws ws' : WorkerStatus),
      (∀ kv ∈ c.workers, kv.2.last_heartbeat ≤ t₀) →
      timesMono t₀ tr = true →
      runTrace c tr = some c' →
      lookupWorker c.workers a = some ws →
      lookupWorker c'.workers a = some ws' →
      ws.last_heartbeat ≤ ws'.last_heartbeat := by
  induction tr with
  | nil =>
    intro c c' t₀ a ws ws' _ _ h hl hl'
    simp [runTrace] at h
    subst h
    rw [hl] at hl'
    exact Nat.le_of_eq (congrArg WorkerStatus.last_heartbeat
      (Option.some.inj hl'))
  | cons et rest ih =>
    intro c c' t₀ a ws ws' hst hm h hl hl'
    obtain ⟨e, t⟩ := et
    simp only [timesMono, Bool.and_eq_true, decide_eq_true_eq] at hm
    obtain ⟨ht₀, hm⟩ := hm
    cases hs : listenStep c e t with
    | none => simp [runTrace, hs] at h
    | some c₁ =>
      have hrest : runTrace c₁ rest = some c' := by
        simpa [runTrace, hs] using h
      have hstc : ∀ kv ∈ c.workers, kv.2.last_heartbeat ≤ t :=
        fun kv hkv => Nat.le_trans (hst kv hkv) ht₀
      obtain ⟨ws₁, hl₁, hcase⟩ := listenStep_lookup_lh c e t c₁ a ws hs hl
      have hle : ws.last_heartbeat ≤ ws₁.last_heartbeat := by
        rcases hcase with hc | hc
        · exact Nat.le_of_eq hc.symm
        · rw [hc]
          exact hstc (a, ws) (mem_of_lookupWorker c.workers a ws hl)
      exact Nat.le_trans hle
        (ih c₁ c' t a ws₁ ws' (listenStep_stamps c e t c₁ hs hstc) hm hrest hl₁ hl')

theorem check_lookup_healthy (c : Controller) (now : Instant) (a : Addr)
    (wsMid ws' : WorkerStatus)
    (hmid : lookupWorker c.workers a = some wsMid)
    (h' : lookupWorker (check_worker_liveness c now).workers a = some ws')
    (hh : ws'.healthy = true) : wsMid.healthy = true := by
  rcases check_worker_liveness_lookup_or c now a with hc | hc
  · rw [hc, hmid] at h'
    have hws : ws' = sweepStatus c.heartbeat_every now wsMid :=
      (Option.some.inj h').symm
    exact sweepStatus_healthy_of c.heartbeat_every now wsMid (hws ▸ hh)
  · rw [hc, hmid] at h'
    exact (Option.some.inj h') ▸ hh

/-- C1: when the gated liveness sweep runs, it marks an entry unhealthy exactly
when the entry is healthy and strictly more than heartbeat_every * 3 has
elapsed since its last heartbeat; an entry at exactly the threshold, and any
entry already unhealthy, is left unchanged. -/
theorem c1_liveness_sweep_strict_threshold (c : Controller) (now : Instant)
    (hgate : now - c.last_checked_workers > c.healthcheck_every) (a : Addr) :
    lookupWorker (check_worker_liveness c now).workers a
      = (lookupWorker c.workers a).map
          (fun ws =>
            if ws.healthy = true ∧ c.heartbeat_every * 3 < now - ws.last_heartbeat
            then { ws with healthy := false }
            else ws) := by
  rw [check_worker_liveness_lookup_of_gate c now hgate a]
  cases hl : lookupWorker c.workers a with
  | none => rfl
  | some ws => simp [sweepStatus_eq_ite]

/-- C1 witness: in the concrete state cW at instant 100 the sweep gate is open;
worker 1 (healthy, heartbeat at 0, elapsed 100 > 6) is marked unhealthy per
the characterization. -/
theorem c1_liveness_sweep_strict_threshold_witness :
    (100 - cW.last_checked_workers > cW.healthcheck_every)
    ∧ lookupWorker (check_worker_liveness cW 100).workers 1
        = (lookupWorker cW.workers 1).map
            (fun ws =>
              if ws.healthy = true ∧ cW.heartbeat_every * 3 < 100 - ws.last_heartbeat
              then { ws with healthy := false }
              else ws) :=
  ⟨by decide, c1_liveness_sweep_strict_threshold cW 100 (by decide) 1⟩

/-- C2: a Register whose outbound connect fails returns an io error, the loop
iteration continues (no panic) with the controller exactly as the liveness
check leaves it, and neither the blender nor the set of registered addresses
is changed. -/
theorem c2_register_connect_failure (c : Controller) (msg : CoordinationMessage)
    (remote : Addr) (now : Instant) (hp : msg.payload = .Register remote) :
    handle c msg none now = some (.error ())
    ∧ listenStep c (.Process msg none) now = some (check_worker_liveness c now)
    ∧ (check_worker_liveness c now).blender = c.blender
    ∧ (check_worker_liveness c now).workers.map Prod.fst
        = c.workers.map Prod.fst := by
  refine ⟨?_, ?_, check_worker_liveness_blender c now,
    check_worker_liveness_keys c now⟩
  · simp [handle, hp, handle_register]
  · simp [listenStep, handle, hp, handle_register]

/-- C2 witness: a Register from unregistered source 3 with a failed connect, in
state cW at instant 100. -/
theorem c2_register_connect_failure_witness :
    handle cW { source := 3, payload := .Register 9 } none 100 = some (.error ())
    ∧ listenStep cW (.Process { source := 3, payload := .Register 9 } none) 100
        = some (check_worker_liveness cW 100)
    ∧ (check_worker_liveness cW 100).blender = cW.blender
    ∧ (check_worker_liveness cW 100).workers.map Prod.fst
        = cW.workers.map Prod.fst :=
  c2_register_connect_failure cW { source := 3, payload := .Register 9 } 9 100 rfl

/-- C3: a Heartbeat whose source is not registered leaves the whole controller
state unchanged and returns Ok, both at the handler and at the dispatcher. -/
theorem c3_unknown_heartbeat_noop (c : Controller) (source : Addr)
    (now : Instant) (h : lookupWorker c.workers source = none) :
    handle_heartbeat c source now = .ok c
    ∧ handle c { source := source, payload := .Heartbeat } none now
        = some (.ok c) := by
  constructor
  · simp [handle_heartbeat, h]
  · simp [handle, handle_heartbeat, h]

/-- C3 witness: a heartbeat from unregistered source 3 in state cW. -/
theorem c3_unknown_heartbeat_noop_witness :
    lookupWorker cW.workers 3 = none
    ∧ (handle_heartbeat cW 3 100 = .ok cW
       ∧ handle cW { source := 3, payload := .Heartbeat } none 100
           = some (.ok cW)) :=
  ⟨by decide, c3_unknown_heartbeat_noop cW 3 100 (by decide)⟩

/-- C4: a Heartbeat from a registered worker sets only that worker's
last_heartbeat to the current instant, keeping its healthy flag and sender
handle, every other worker's entry, and all other controller fields intact. -/
theorem c4_heartbeat_frame (c : Controller) (source : Addr) (now : Instant)
    (ws : WorkerStatus) (h : lookupWorker c.workers source = some ws) :
    ∃ c', handle_heartbeat c source now = .ok c'
      ∧ lookupWorker c'.workers source = some { ws with last_heartbeat := now }
      ∧ (∀ a, a ≠ source → lookupWorker c'.workers a = lookupWorker c.workers a)
      ∧ c'.blender = c.blender
      ∧ c'.heartbeat_every = c.heartbeat_every
      ∧ c'.healthcheck_every = c.healthcheck_every
      ∧ c'.last_checked_workers = c.last_checked_workers := by
  refine ⟨{ c with workers := setHeartbeat c.workers source now },
    ?_, ?_, ?_, rfl, rfl, rfl, rfl⟩
  · simp [handle_heartbeat, h]
  · show lookupWorker (setHeartbeat c.workers source now) source = _
    rw [lookupWorker_setHeartbeat]
    simp [h]
  · intro a ha
    show lookupWorker (setHeartbeat c.workers source now) a = _
    rw [lookupWorker_setHeartbeat, if_neg ha]

/-- C4 witness: a heartbeat from registered worker 1 in state cW at instant
100. -/
theorem c4_heartbeat_frame_witness :
    lookupWorker cW.workers 1
      = some { healthy := true, last_heartbeat := 0, sender := some 7 }
    ∧ ∃ c', handle_heartbeat cW 1 100 = .ok c'
      ∧ lookupWorker c'.workers 1
          = some { healthy := true, last_heartbeat := 100, sender := some 7 }
      ∧ (∀ a, a ≠ 1 → lookupWorker c'.workers a = lookupWorker cW.workers a)
      ∧ c'.blender = cW.blender
      ∧ c'.heartbeat_every = cW.heartbeat_every
      ∧ c'.healthcheck_every = cW.healthcheck_every
      ∧ c'.last_checked_workers = cW.last_checked_workers :=
  ⟨by decide, c4_heartbeat_frame cW 1 100
    { healthy := true, last_heartbeat := 0, sender := some 7 } (by decide)⟩

/-- C6: a Register whose connect succeeds produces exactly the controller with
a fresh WorkerStatus (healthy, heartbeat now, sender stored) inserted under the
message source, and the worker admitted to the blender afterwards. -/
theorem c6_register_success (c : Controller) (source remote : Addr)
    (s : SenderId) (now : Instant) :
    handle_register c source remote (some s) now
      = .ok { c with
              workers := insertWorker c.workers source (WorkerStatus.new s now)
              blender := c.blender ++ [(source, s)] }
    ∧ lookupWorker (insertWorker c.workers source (WorkerStatus.new s now)) source
        = some { healthy := true, last_heartbeat := now, sender := some s } := by
  constructor
  · rfl
  · rw [lookupWorker_insertWorker]
    simp [WorkerStatus.new]

/-- C7: the dispatcher panics exactly on the payload variants that are neither
Register nor Heartbeat. -/
theorem c7_dispatch_panics_iff_unknown (c : Controller)
    (msg : CoordinationMessage) (connectResult : Option SenderId)
    (now : Instant) :
    handle c msg connectResult now = none
      ↔ (∀ remote, msg.payload ≠ .Register remote)
        ∧ msg.payload ≠ .Heartbeat := by
  cases hp : msg.payload with
  | Register remote => simp [handle, hp]
  | Heartbeat => simp [handle, hp]
  | Other t => simp [handle, hp]

/-- C10: a successful re-registration of an already-registered source appends a
second admission of that address to the blender, keeping the earlier one. -/
theorem c10_reregistration_readmits (c : Controller) (source remote : Addr)
    (s : SenderId) (now : Instant) (wsOld : WorkerStatus)
    (hprev : lookupWorker c.workers source = some wsOld) :
    ∃ c', handle_register c source remote (some s) now = .ok c'
      ∧ c'.blender = c.blender ++ [(source, s)]
      ∧ c'.blender.length = c.blender.length + 1
      ∧ ∀ p ∈ c.blender, p ∈ c'.blender := by
  refine ⟨{ c with
            workers := insertWorker c.workers source (WorkerStatus.new s now)
            blender := c.blender ++ [(source, s)] }, rfl, rfl, by simp, ?_⟩
  intro p hp
  simp only [List.mem_append]
  exact Or.inl hp

/-- C10 witness: worker 1 is already registered in cW and already admitted to
the blender; a second successful Register appends a second admission. -/
theorem c10_reregistration_readmits_witness :
    lookupWorker cW.workers 1
      = some { healthy := true, last_heartbeat := 0, sender := some 7 }
    ∧ ∃ c', handle_register cW 1 9 (some 8) 100 = .ok c'
      ∧ c'.blender = cW.blender ++ [(1, 8)]
      ∧ c'.blender.length = cW.blender.length + 1
      ∧ ∀ p ∈ cW.blender, p ∈ c'.blender :=
  ⟨by decide, c10_reregistration_readmits cW 1 9 8 100
    { healthy := true, last_heartbeat := 0, sender := some 7 } (by decide)⟩

/-- C5: across any run of the event loop the registry keeps at most one entry
per address, and a successful Register for an already-registered address
overwrites that entry in place (same registry size, fresh status under the
key) rather than duplicating or merging. -/
theorem c5_at_most_one_entry (c : Controller) (tr : List (PollEvent × Instant))
    (c' : Controller) (hn : (c.workers.map Prod.fst).Nodup)
    (h : runTrace c tr = some c') :
    (c'.workers.map Prod.fst).Nodup
    ∧ ∀ (d d' : Controller) (source remote : Addr) (s : SenderId)
        (now : Instant) (wsOld : WorkerStatus),
        lookupWorker d.workers source = some wsOld →
        handle_register d source remote (some s) now = .ok d' →
        d'.workers.length = d.workers.length
        ∧ lookupWorker d'.workers source = some (WorkerStatus.new s now) := by
  refine ⟨runTrace_nodup tr c c' hn h, ?_⟩
  intro d d' source remote s now wsOld hOld hreg
  have hd' : d' = { d with
      workers := insertWorker d.workers source (WorkerStatus.new s now)
      blender := d.blender ++ [(source, s)] } := by
    have hr := hreg
    simp [handle_register, WorkerStatus.new] at hr
    exact hr.symm
  subst hd'
  constructor
  · show (insertWorker d.workers source (WorkerStatus.new s now)).length = _
    exact insertWorker_length_of_lookup d.workers source _ wsOld hOld
  · show lookupWorker
      (insertWorker d.workers source (WorkerStatus.new s now)) source = _
    rw [lookupWorker_insertWorker]
    simp

/-- C5 witness: running trW (two registrations of worker 1) from an empty
controller keeps the key list duplicate-free. -/
theorem c5_at_most_one_entry_witness :
    ((Controller.new 2 5 0).workers.map Prod.fst).Nodup
    ∧ runTrace (Controller.new 2 5 0) trW = some cW5
    ∧ ((cW5.workers.map Prod.fst).Nodup
       ∧ ∀ (d d' : Controller) (source remote : Addr) (s : SenderId)
           (now : Instant) (wsOld : WorkerStatus),
           lookupWorker d.workers source = some wsOld →
           handle_register d source remote (some s) now = .ok d' →
           d'.workers.length = d.workers.length
           ∧ lookupWorker d'.workers source = some (WorkerStatus.new s now)) :=
  ⟨by decide, by decide,
    c5_at_most_one_entry (Controller.new 2 5 0) trW cW5 (by decide) (by decide)⟩

/-- C8: along any run of the event loop with a monotone clock (all registry
timestamps at most the base instant, trace instants non-decreasing), the
last_heartbeat of every worker present at the start and the end never
decreases. -/
theorem c8_last_heartbeat_monotone (c c' : Controller) (t₀ : Instant)
    (tr : List (PollEvent × Instant)) (a : Addr) (ws ws' : WorkerStatus)
    (hst : ∀ kv ∈ c.workers, kv.2.last_heartbeat ≤ t₀)
    (hm : timesMono t₀ tr = true)
    (h : runTrace c tr = some c')
    (hl : lookupWorker c.workers a = some ws)
    (hl' : lookupWorker c'.workers a = some ws') :
    ws.last_heartbeat ≤ ws'.last_heartbeat :=
  runTrace_lastHeartbeat_le tr c c' t₀ a ws ws' hst hm h hl hl'

/-- C8 witness: from cW (timestamps 0) a heartbeat of worker 1 at instant 7
raises its last_heartbeat from 0 to 7. -/
theorem c8_last_heartbeat_monotone_witness :
    (∀ kv ∈ cW.workers, kv.2.last_heartbeat ≤ 0)
    ∧ timesMono 0 trW8 = true
    ∧ runTrace cW trW8 = some cW8
    ∧ lookupWorker cW.workers 1
        = some { healthy := true, last_heartbeat := 0, sender := some 7 }
    ∧ lookupWorker cW8.workers 1
        = some { healthy := true, last_heartbeat := 7, sender := some 7 }
    ∧ ({ healthy := true, last_heartbeat := 0, sender := some 7 }
        : WorkerStatus).last_heartbeat
      ≤ ({ healthy := true, last_heartbeat := 7, sender := some 7 }
          : WorkerStatus).last_heartbeat :=
  ⟨by decide, by decide, by decide, by decide, by decide,
    c8_last_heartbeat_monotone cW cW8 0 trW8 1
      { healthy := true, last_heartbeat := 0, sender := some 7 }
      { healthy := true, last_heartbeat := 7, sender := some 7 }
      (by decide) (by decide) (by decide) (by decide) (by decide)⟩

/-- C9: a successful re-registration of a registered address replaces its entry
by a fresh WorkerStatus (healthy again, heartbeat now, new sender) without
changing the registry size; and conversely, the only loop step that takes any
worker from unhealthy to healthy is a Register message from that worker with a
successful connect. -/
theorem c9_only_reregistration_revives :
    (∀ (c : Controller) (source remote : Addr) (s : SenderId) (now : Instant)
        (wsOld : WorkerStatus),
        lookupWorker c.workers source = some wsOld →
        ∃ c', handle_register c source remote (some s) now = .ok c'
          ∧ lookupWorker c'.workers source
              = some { healthy := true, last_heartbeat := now, sender := some s }
          ∧ c'.workers.length = c.workers.length)
    ∧ (∀ (c : Controller) (e : PollEvent) (now : Instant) (c' : Controller)
        (a : Addr) (ws ws' : WorkerStatus),
        listenStep c e now = some c' →
        lookupWorker c.workers a = some ws →
        lookupWorker c'.workers a = some ws' →
        ws.healthy = false → ws'.healthy = true →
        ∃ remote s,
          e = .Process { source := a, payload := .Register remote } (some s)) := by
  constructor
  · intro c source remote s now wsOld hOld
    refine ⟨{ c with
              workers := insertWorker c.workers source (WorkerStatus.new s now)
              blender := c.blender ++ [(source, s)] }, rfl, ?_, ?_⟩
    · show lookupWorker
        (insertWorker c.workers source (WorkerStatus.new s now)) source = _
      rw [lookupWorker_insertWorker]
      simp [WorkerStatus.new]
    · show (insertWorker c.workers source (WorkerStatus.new s now)).length = _
      exact insertWorker_length_of_lookup c.workers source _ wsOld hOld
  · intro c e now c' a ws ws' hstep hl hl' hfalse htrue
    rcases listenStep_shape c e now c' hstep with hsh |
      ⟨msg, s, remote, he, hp, hsh⟩ | ⟨msg, cr, ws₀, he, hp, hl₀, hsh⟩
    · subst hsh
      have hthis := check_lookup_healthy c now a ws ws' hl hl' htrue
      rw [hfalse] at hthis
      simp at hthis
    · subst hsh
      by_cases ha : a = msg.source
      · obtain ⟨src, pl⟩ := msg
        have ha₁ : src = a := ha.symm
        subst ha₁
        have hp₁ : pl = .Register remote := hp
        subst hp₁
        exact ⟨remote, s, he⟩
      · have hmid : lookupWorker
            ({ c with
               workers := insertWorker c.workers msg.source (WorkerStatus.new s now)
               blender := c.blender ++ [(msg.source, s)] } : Controller).workers a
            = some ws := by
          show lookupWorker
            (insertWorker c.workers msg.source (WorkerStatus.new s now)) a = _
          rw [lookupWorker_insertWorker, if_neg ha]
          exact hl
        have hthis := check_lookup_healthy _ now a ws ws' hmid hl' htrue
        rw [hfalse] at hthis
        simp at hthis
    · subst hsh
      by_cases ha : a = msg.source
      · have hmid : lookupWorker
            ({ c with workers := setHeartbeat c.workers msg.source now } :
              Controller).workers a
            = some { ws with last_heartbeat := now } := by
          show lookupWorker (setHeartbeat c.workers msg.source now) a = _
          rw [lookupWorker_setHeartbeat, if_pos ha, hl]
          rfl
        have hthis := check_lookup_healthy _ now a _ ws' hmid hl' htrue
        rw [show ({ ws with last_heartbeat := now } : WorkerStatus).healthy
            = ws.healthy from rfl, hfalse] at hthis
        simp at hthis
      · have hmid : lookupWorker
            ({ c with workers := setHeartbeat c.workers msg.source now } :
              Controller).workers a
            = some ws := by
          show lookupWorker (setHeartbeat c.workers msg.source now) a = _
          rw [lookupWorker_setHeartbeat, if_neg ha]
          exact hl
        have hthis := check_lookup_healthy _ now a ws ws' hmid hl' htrue
        rw [hfalse] at hthis
        simp at hthis

/-- C9 witness: worker 1 of cW re-registers successfully at instant 100 with a
new sender handle 8; its entry is replaced by a fresh healthy status and the
registry size is unchanged. -/
theorem c9_only_reregistration_revives_witness :
    lookupWorker cW.workers 1
      = some { healthy := true, last_heartbeat := 0, sender := some 7 }
    ∧ ∃ c', handle_register cW 1 9 (some 8) 100 = .ok c'
      ∧ lookupWorker c'.workers 1
          = some { healthy := true, last_heartbeat := 100, sender := some 8 }
      ∧ c'.workers.length = cW.workers.length :=
  ⟨by decide, c9_only_reregistration_revives.1 cW 1 9 8 100
    { healthy := true, last_heartbeat := 0, sender := some 7 } (by decide)⟩

end NoriaController
